import Mathlib

/-
Verification of the goterm repository (package `term`): shallow embedding of
the stdout/stderr capture pipeline, the blocking stream buffer, the
sentinel-tagged line protocol with its HTML converter, the session lifecycle,
and the HTML block-wrapping helpers, together with theorems settling the
specification claims.
-/

namespace GoTerm

/-! ## Primitives mirroring Go's `strings` / `bufio` helpers

Strings are modelled as Lean `String`; byte positions of the Go code become
character positions (all inputs of interest are ASCII, where the two agree).
-/

/-- `listStarts pat s` decides whether `pat` is a prefix of `s` (char lists). -/
def listStarts : List Char → List Char → Bool
  | [], _ => true
  | _ :: _, [] => false
  | p :: ps, c :: cs => p == c && listStarts ps cs

/-- Go `strings.HasPrefix`. -/
def startsWith (s pat : String) : Bool := listStarts pat.data s.data

/-- Go `strings.HasSuffix`. -/
def hasSuffix (s pat : String) : Bool := listStarts pat.data.reverse s.data.reverse

/-- Whitespace predicate of Go's `unicode.IsSpace` restricted to the Latin-1
characters that can occur in the inputs of interest. -/
def isSpaceGo (c : Char) : Bool :=
  c == ' ' || c == '\t' || c == '\n' || c == '\x0b' || c == '\x0c' || c == '\r' ||
  c == '\x85' || c == '\xa0'

/-- Go `strings.TrimSpace`: drop leading and trailing whitespace. -/
def trimSpace (s : String) : String :=
  String.mk ((((s.data.dropWhile isSpaceGo).reverse).dropWhile isSpaceGo).reverse)

/-- Go `strings.ReplaceAll` on char lists (the pattern is never empty at the
call sites modelled here; an empty pattern is returned unchanged). -/
def replaceAllL (s pat rep : List Char) : List Char :=
  match pat with
  | [] => s
  | p :: ps =>
    match s with
    | [] => []
    | c :: cs =>
      if listStarts (p :: ps) (c :: cs) then
        rep ++ replaceAllL (cs.drop ps.length) (p :: ps) rep
      else
        c :: replaceAllL cs (p :: ps) rep
termination_by s.length
decreasing_by
  · simp only [List.length_cons]
    have h := List.length_drop ps.length cs
    omega
  · simp only [List.length_cons]
    omega

/-- Go `strings.ReplaceAll` on strings. -/
def replaceAllStr (s pat rep : String) : String :=
  String.mk (replaceAllL s.data pat.data rep.data)

/-- `dropCR` of Go's `bufio.ScanLines`: strip one trailing carriage return. -/
def dropCR (l : List Char) : List Char :=
  if l.getLast? = some '\r' then l.dropLast else l

/-- Split a char stream into lines exactly as a `bufio.Scanner` with
`bufio.ScanLines` does: a token per newline (newline excluded, one trailing
CR dropped), and a final token for leftover data at end of input when it is
nonempty.  `acc` holds the current line, reversed. -/
def splitLinesAux : List Char → List Char → List (List Char)
  | [], acc => if acc.isEmpty then [] else [dropCR acc.reverse]
  | c :: rest, acc =>
    if c = '\n' then dropCR acc.reverse :: splitLinesAux rest []
    else splitLinesAux rest (c :: acc)

/-- The line sequence a `bufio.Scanner` produces from captured stream `s`. -/
def scanLines (s : String) : List String :=
  (splitLinesAux s.data []).map String.mk

/-! ## The sentinel protocol and the HTML converter (`term.go`) -/

/-- `HtmlTag`: the reserved sentinel wrapping literal HTML in the stream. -/
def HtmlTag : String := "==========76ADCBF0-980B-4C05-951F-63340F35E9C=========="

/-- `escapeHtml` wraps HTML content in the sentinel tag (a newline after the
closing tag must be added by the writer, as `fmt.Println` does). -/
def escapeHtml (html : String) : String :=
  HtmlTag ++ "\n" ++ html ++ "\n" ++ HtmlTag

/-- The opener token of a preformatted plain-text block. -/
def preOpen : String := "<pre class=\"goterm\">\n"

/-- The closer token of a preformatted plain-text block. -/
def preClose : String := "</pre>\n"

/-- The scanner state of `internalHTML`: whether the converter is inside a
sentinel-delimited raw-HTML region, and whether the next plain-text line
would be the first of its preformatted block. -/
structure ConvState where
  inHtml : Bool
  isFirstTextLine : Bool
deriving DecidableEq, Repr

/-- One step of the `convertLine` closure of `internalHTML`: the tokens
yielded for one scanned line, and the updated state.  A line ending in the
sentinel toggles `inHtml` (closing an open preformatted block first) and is
itself discarded; in raw-HTML mode the line is yielded verbatim with a
newline; otherwise the line is wrapped into the current preformatted block,
opening it if needed. -/
def convertLine (st : ConvState) (line : String) : ConvState × List String :=
  if hasSuffix line HtmlTag then
    ⟨⟨!st.inHtml, true⟩,
      if !st.inHtml && !st.isFirstTextLine then [preClose] else []⟩
  else if st.inHtml then
    ⟨st, [line ++ "\n"]⟩
  else if st.isFirstTextLine then
    ⟨⟨st.inHtml, false⟩, [preOpen, line ++ "\n"]⟩
  else
    ⟨st, [line ++ "\n"]⟩

/-- Run `convertLine` over a list of scanned lines, collecting all yielded
tokens (the consumer never stops early). -/
def convertLines : ConvState → List String → List String × ConvState
  | st, [] => ([], st)
  | st, l :: ls =>
    let s1 := convertLine st l
    let rest := convertLines s1.1 ls
    (s1.2 ++ rest.1, rest.2)

/-- `getHtmlPageSuffix`: the closing chrome of a full HTML page. -/
def getHtmlPageSuffix : String := "</body>\n</html>\n"

/-- CSS `BodyStyle` from styles.go. -/
def BodyStyle : String :=
  "\nhtml, body \x7b\n\t/* enable top level elements in body to take up the full height */\n\theight: 100%;\n\x7d\nbody \x7b\n\t/* remove default margin */\n\tmargin: 0;\n\n\t/* slightly off-white background color */\n\tbackground-color: #f8f8f8;\n\x7d\n"

/-- CSS `IframeStyle` from styles.go. -/
def IframeStyle : String :=
  "\niframe \x7b\n    /* transparent background will make a iframe more like a div */\n\tbackground-color: transparent;\n\n\t/* remove border */\n\tborder: none;\n\x7d\niframe.echart \x7b\n    /* set a minimum width for echart */\n    min-width: 916px;\n\x7d\n"

/-- CSS `BlockStyle` from styles.go. -/
def BlockStyle : String :=
  "\ndiv.goterm-row \x7b\n    /* Center the content */\n    display: flex;\n    justify-content: space-around;\n    align-items: center;\n\n    /* Scroll on x-axis */\n    overflow-x: auto;\n    overflow-y: hidden;\n\n    /* Default background color */\n    background-color: white;\n\x7d\n\ndiv.goterm-box \x7b\n    /* Respect the width of the child element */\n    flex: 0 0 auto;\n\n    /* User can override the width and height */\n    width: auto;\n    height: auto;\n\n    /* Center the content when it\x27s smaller */\n    display: flex;\n    justify-content: left;\n    align-items: center;\n\n    /* No scrollbars */\n    overflow:hidden;\n\x7d\n  \ndiv.goterm-box > :first-child \x7b\n    /* Override the width and height */\n    width: 100%;\n    height: 100%;\n\x7d\n"

/-- CSS `TextStyle` from styles.go. -/
def TextStyle : String :=
  "\npre.goterm \x7b\n    /* Background color similar to modern terminals */\n    background-color: #1e1e1e;\n    \n    /* Text color with 95% brightness using HSL for modern browsers */\n    color: hsl(0deg 0% 95%);\n    \n    /* Modern font settings */\n    font-family: monaco, monospace, \x27Consolas\x27, \x27Courier New\x27;\n    font-size: 1rem;\n    line-height: 1.5;\n\n\t/* Remove default margin */\n\tmargin: 0;\n    \n    /* Padding for better spacing */\n    padding: 0.5rem;\n    \n    /* Border to simulate a modern terminal window */\n    border: 1px solid #333;\n\n    /* Modern text handling */\n    white-space: pre-wrap;\n    word-break: break-all;\n    \n    /* Cursor style for interactivity feel */\n    cursor: text;\n\n    /* Modern shadow for depth */\n    box-shadow: 0 0 10px rgba(0, 0, 0, 0.5);\n    \n    /* Modern border-radius for a softer look */\n    border-radius: 0.25rem;\n\n    /* Optional: Custom scrollbar for a more native look */\n    overflow-y: auto;\n    scrollbar-width: thin;\n    scrollbar-color: #888 #1e1e1e;\n\x7d\n"

/-- Auto-scroll `ScrollScript` from styles.go. -/
def ScrollScript : String :=
  "\n<script>\n    let autoScroll = true;\n    let lastScrollTop = 0;\n\n    // Function to scroll to the bottom of the page\n    function scrollToBottom() \x7b\n        if (autoScroll) \x7b\n\t\t\twindow.scrollTo(\x7b\n                top: document.body.scrollHeight,\n                behavior: \x27smooth\x27\n            \x7d);\n        \x7d\n    \x7d\n\n    // Listen for scroll events to if we should stop auto-scrolling.\n\t// This will set autoScroll to false if the user scrolls up.\n    window.addEventListener(\x27scroll\x27, function() \x7b\n        let st = window.pageYOffset || document.documentElement.scrollTop;\n        // Check if the user is scrolling up\n        if (lastScrollTop - st >= 2) \x7b\n            autoScroll = false;\n        \x7d\n        lastScrollTop = st <= 0 ? 0 : st; // For Mobile or negative scrolling\n    \x7d);\n\n    // Periodically check if we should restart auto-scrolling.\n\t// This will set autoScroll to true if the user is at the bottom of the page.\n    function checkScrollPosition() \x7b\n        if (!autoScroll && (document.body.scrollHeight - window.innerHeight - window.scrollY <= 100)) \x7b\n            autoScroll = true;\n        \x7d\n    \x7d\n\n    // Start auto-scrolling\n    setInterval(scrollToBottom, 200);\n\n    // Start checking scroll position every second\n    setInterval(checkScrollPosition, 1000);\n</script>\n"

/-- `getHtmlPagePrefix`: doctype, head, styles and the scroll script. -/
def getHtmlPagePrefixStr : String :=
  "<!DOCTYPE html>\n<html>\n<head>\n<title>Term</title>\n</head>\n<body>\n" ++
  "<style>\n" ++ BodyStyle ++ IframeStyle ++ BlockStyle ++ TextStyle ++
  "</style>\n" ++ ScrollScript

/-- `internalHTML`: the token sequence yielded for a captured stream.  The
line source is the replay cache (when enabled) followed by the live buffer;
both feed the same `convertLine` closure with continuing state, so they are
modelled as a single captured stream, scanned into lines.  Tokens: optional
page prefix, the per-line tokens, the close of a still-open preformatted
block, optional page suffix. -/
def internalHTML (fullPage : Bool) (captured : String) : List String :=
  let run := convertLines ⟨false, true⟩ (scanLines captured)
  (if fullPage then [getHtmlPagePrefixStr] else []) ++
  run.1 ++
  (if !run.2.inHtml && !run.2.isFirstTextLine then [preClose] else []) ++
  (if fullPage then [getHtmlPageSuffix] else [])

/-! ## The blocking stream buffer (`buffer.go`) -/

/-- Result of one `Buffer.Read` call: data delivered, a blocked channel
receive (channel empty and not closed), or end of stream. -/
inductive ReadResult where
  | data (s : String)
  | blocked
  | eof
deriving DecidableEq, Repr

/-- The channel-backed buffer: the chunks queued in the channel, the chunk
currently being consumed together with the read position inside it, and
whether the channel has been closed. -/
structure Buffer where
  pending : List String
  str : String
  pos : Nat
  closed : Bool
deriving DecidableEq, Repr

def NewBuffer : Buffer := ⟨[], "", 0, false⟩

/-- `Buffer.Read` into a destination of capacity `n`: when the current chunk
is exhausted, receive the next chunk from the channel (end of stream when the
channel is closed and drained, blocking while it is merely empty), then copy
up to `n` characters of the current chunk. -/
def Buffer.Read (b : Buffer) (n : Nat) : ReadResult × Buffer :=
  if b.str.length ≤ b.pos then
    match b.pending with
    | [] => if b.closed then (.eof, b) else (.blocked, b)
    | c :: rest =>
      let out := String.mk (c.data.take n)
      (.data out, ⟨rest, c, out.length, b.closed⟩)
  else
    let out := String.mk ((b.str.data.drop b.pos).take n)
    (.data out, { b with pos := b.pos + out.length })

/-- `Buffer.WriteString`: sending on a closed channel is a fatal error;
otherwise the chunk is enqueued and its length returned. -/
def Buffer.WriteString (b : Buffer) (s : String) : Except String (Buffer × Nat) :=
  if b.closed then .error ("send on closed channel")
  else .ok ({ b with pending := b.pending ++ [s] }, s.length)

/-- `Buffer.Close`: closing an already-closed channel is a fatal error. -/
def Buffer.Close (b : Buffer) : Except String Buffer :=
  if b.closed then .error ("close of closed channel")
  else .ok { b with closed := true }

/-- All content a reader has yet to receive from the buffer. -/
def Buffer.contents (b : Buffer) : String :=
  String.mk (b.str.data.drop b.pos) ++ String.join b.pending

/-- Enqueue a list of chunks in order (successive `WriteString` calls). -/
def writeAll : Buffer → List String → Except String Buffer
  | b, [] => .ok b
  | b, s :: rest =>
    match b.WriteString s with
    | .error e => .error e
    | .ok bp => writeAll bp.1 rest

/-- Read repeatedly (capacity `cap` each time, at most `fuel` reads),
collecting the delivered chunks, until end of stream or a blocked read. -/
def readsToEof : Buffer → Nat → Nat → List String × Buffer
  | b, 0, _ => ([], b)
  | b, fuel + 1, cap =>
    match b.Read cap with
    | (.data s, bp) =>
      let rest := readsToEof bp fuel cap
      (s :: rest.1, rest.2)
    | (.blocked, bp) => ([], bp)
    | (.eof, bp) => ([], bp)

/-! ## Session state and options (`term.go`, `options.go`) -/

/-- The five output formats. -/
inductive OutputFormat where
  | HTMLWindow
  | HTMLPage
  | HTMLContent
  | Raw
  | Custom
deriving DecidableEq, Repr

/-- The session state (`Term`), restricted to the fields the claims depend
on; pipes, wait groups and the logger live outside the model. -/
structure Term where
  buf : Buffer
  opened : Bool
  closed : Bool
  format : OutputFormat
  port : Int
  attachOutput : Bool
  cacheOutput : Bool
deriving Repr

/-- `NewTerm`: a fresh session; Go zero values select `HTMLWindow`, port 0
and both boolean options off. -/
def NewTerm : Term := ⟨NewBuffer, false, false, .HTMLWindow, 0, false, false⟩

/-- A `TermOption` mutates the session while it is being opened. -/
def TermOption := Term → Term

/-- The `Detach` option: clear the mirror-to-original flag. -/
def Detach : TermOption := fun t => { t with attachOutput := false }

/-- The `Format` option. -/
def Format (format : OutputFormat) : TermOption :=
  fun t => { t with format := format }

/-- The `BindPort` option: custom format, fixed port, caching on. -/
def BindPort (port : Int) : TermOption :=
  fun t => { t with format := .Custom, port := port, cacheOutput := true }

/-- `Term.Open`: fatal on an already-opened session; otherwise mark the
session opened and apply the options in order (redirection and the
forwarding tasks are modelled by `runForward` below). -/
def Term.Open (t : Term) (options : List TermOption) : Except String Term :=
  if t.opened then .error ("terminal is already opened")
  else .ok (options.foldl (fun acc o => o acc) { t with opened := true })

/-- `Term.Close`: restore the standard streams, stop the forwarding tasks,
then close the buffer — on a second close this is a close of an already
closed channel, which is fatal — and mark the session closed. -/
def Term.Close (t : Term) : Except String Term :=
  match t.buf.Close with
  | .error e => .error e
  | .ok b => .ok { t with buf := b, closed := true }

/-- `Term.HTML`: fatal unless the selected format is `Custom`; otherwise the
converter's token sequence over the captured stream. -/
def Term.HTML (t : Term) (fullPage : Bool) : Except String (List String) :=
  if t.format ≠ .Custom then
    .error ("format must be CustomFormat when calling HTML()")
  else .ok (internalHTML fullPage t.buf.contents)

/-! ## Capture pipeline (`Open`, lines 118-148) -/

/-- Where a forwarding task writes: `Open` copies each redirect pipe into
`io.MultiWriter(t.buf, sysStdout)` when the format is `Raw`, and into the
buffer alone otherwise. -/
inductive Sink where
  | buffer
  | original
deriving DecidableEq, Repr

def forwardSinks (t : Term) : List Sink :=
  if t.format = .Raw then [.buffer, .original] else [.buffer]

/-- Run one forwarding task over the byte chunks of a redirected stream,
returning what reaches the buffer and what reaches the original
stdout/stderr destination. -/
def runForward (t : Term) (chunks : List String) : List String × List String :=
  ((if Sink.buffer ∈ forwardSinks t then chunks else []),
   (if Sink.original ∈ forwardSinks t then chunks else []))

/-! ## Block wrapping and iframe escaping (`styles.go`) -/

/-- Go `html.EscapeString`, character by character. -/
def escChar (c : Char) : List Char :=
  if c = '&' then ("&amp;").data
  else if c = '\x27' then ("&#39;").data
  else if c = '<' then ("&lt;").data
  else if c = '>' then ("&gt;").data
  else if c = '"' then ("&#34;").data
  else [c]

def htmlEscapeString (s : String) : String :=
  String.mk (s.data.map escChar).flatten

/-- `escapeForSrcdoc`: HTML-escape, then replace double quotes (already
escaped by the previous step) for the `srcdoc` attribute. -/
def escapeForSrcdoc (content : String) : String :=
  replaceAllStr (htmlEscapeString content) ("\"") ("&#34;")

/-- The single-quote character used by the div templates. -/
def sq : String := "\x27"

/-- `EscapeIframe`: wrap page HTML in an iframe, by remote `src` when the
content starts with "http", else inline through an escaped `srcdoc`. -/
def EscapeIframe (pageHtml klass : String) : String :=
  let av : String × String :=
    if startsWith pageHtml ("http") then (("src"), pageHtml)
    else (("srcdoc"), escapeForSrcdoc pageHtml)
  "<iframe class=\"" ++ klass ++ "\" " ++ av.1 ++ "=\"" ++ av.2 ++ "\"></iframe>"

/-- `blockConfig` of styles.go.  The CSS renderings of the background/color
options and of the opacity stand in for `color.Color` values and the float
(`colorToCSS` float formatting is outside the model). -/
structure blockConfig where
  width : Int
  height : Int
  background : Option String
  color : Option String
  opacity : Option String

/-- Effective width after the zero-argument override in `PrintBlockSize`. -/
def effWidth (conf : blockConfig) (width : Int) : Int :=
  if width == 0 then conf.width else width

/-- Effective height after the zero-argument override. -/
def effHeight (conf : blockConfig) (height : Int) : Int :=
  if height == 0 then conf.height else height

/-- The row style computed by `PrintBlockSize`. -/
def rowStyleOf (conf : blockConfig) : String :=
  match conf.background with
  | some bg => "background-color: " ++ bg ++ ";"
  | none => ""

/-- The box style computed by `PrintBlockSize`, before the iframe widening. -/
def boxStyleOf (conf : blockConfig) (width height : Int) : String :=
  (if effWidth conf width > 0 then
    "width: " ++ toString (effWidth conf width) ++ "px;" else "") ++
  (if effHeight conf height > 0 then
    "height: " ++ toString (effHeight conf height) ++ "px;" else "") ++
  (match conf.color with | some c => "color: " ++ c ++ ";" | none => "") ++
  (match conf.opacity with | some o => "opacity: " ++ o ++ ";" | none => "")

/-- The final div wrapping of `PrintBlockSize`: row div around box div around
the content, with empty style attributes removed. -/
def blockWrap (row css inner : String) : String :=
  replaceAllStr
    ("<div class=" ++ sq ++ "goterm-row" ++ sq ++ " style=" ++ sq ++ row ++ sq ++
     "><div style=" ++ sq ++ css ++ sq ++ " class=" ++ sq ++ "goterm-box" ++ sq ++ ">" ++
     inner ++ "</div></div>")
    (" style=" ++ sq ++ sq) ("")

/-- `PrintBlockSize` up to its final `PrintHtml` call: compute row and box
styles, auto-wrap content ending in a page close tag into an iframe, widen
iframe content, and emit the wrapped html. -/
def printBlockSizeHtml (html : String) (width height : Int) (conf : blockConfig) : String :=
  let row := rowStyleOf conf
  let css := boxStyleOf conf width height
  let html1 :=
    if hasSuffix (trimSpace html) ("</html>") then EscapeIframe html ("") else html
  let css1 :=
    if startsWith html1 ("<iframe") then ("width: 100%;" ++ css) ++ "overflow-x: auto;"
    else css
  blockWrap row css1 html1

end GoTerm

namespace GoTerm

/-! ## Helper lemmas on the primitives -/

theorem strDataMk (l : List Char) : (String.mk l).data = l := rfl

theorem strMkData (s : String) : String.mk s.data = s := by
  cases s
  rfl

theorem data_newline : ("\n" : String).data = ['\n'] := rfl

theorem listStarts_append_of (p l t : List Char) (h : listStarts p l = true) :
    listStarts p (l ++ t) = true := by
  induction p generalizing l with
  | nil => rfl
  | cons a ps ih =>
    cases l with
    | nil => simp [listStarts] at h
    | cons b bs =>
      simp only [listStarts, Bool.and_eq_true, beq_iff_eq, List.cons_append] at h ⊢
      exact ⟨h.1, ih bs h.2⟩

theorem dropCR_of_not_mem (l : List Char) (h : '\r' ∉ l) : dropCR l = l := by
  unfold dropCR
  split
  · next hg =>
    exfalso
    rcases List.mem_getLast?_eq_getLast (l := l) (x := '\r') hg with ⟨hne, hx⟩
    have hm := List.getLast_mem hne
    rw [← hx] at hm
    exact h hm
  · rfl

theorem splitLinesAux_newline_append (cs : List Char) :
    ∀ (acc Z : List Char),
      splitLinesAux (cs ++ '\n' :: Z) acc =
        splitLinesAux (cs ++ ['\n']) acc ++ splitLinesAux Z [] := by
  induction cs with
  | nil =>
    intro acc Z
    simp [splitLinesAux]
  | cons c cs ih =>
    intro acc Z
    by_cases hc : c = '\n'
    · subst hc
      simp only [List.cons_append, splitLinesAux, if_true, if_pos rfl,
        List.append_eq]
      rw [ih]
    · simp only [List.cons_append, splitLinesAux, if_neg hc, List.append_eq]
      exact ih (c :: acc) Z

theorem splitLinesAux_flatten (cs : List Char) :
    ∀ acc : List Char, '\r' ∉ cs → '\r' ∉ acc →
      ((splitLinesAux (cs ++ ['\n']) acc).map (fun l => l ++ ['\n'])).flatten =
        acc.reverse ++ cs ++ ['\n'] := by
  induction cs with
  | nil =>
    intro acc _ hacc
    have hrev : '\r' ∉ acc.reverse := by simpa using hacc
    simp [splitLinesAux, dropCR_of_not_mem _ hrev]
  | cons c cs ih =>
    intro acc hcs hacc
    have hc' : ¬(c = '\r') := fun h => hcs (List.mem_cons.mpr (Or.inl h.symm))
    have htl : '\r' ∉ cs := fun h => hcs (List.mem_cons.mpr (Or.inr h))
    by_cases hc : c = '\n'
    · subst hc
      have hrev : '\r' ∉ acc.reverse := by simpa using hacc
      simp only [List.cons_append, splitLinesAux, if_true, if_pos rfl,
        List.map_cons, List.flatten_cons, List.append_eq]
      rw [ih [] htl (by simp), dropCR_of_not_mem _ hrev]
      simp
    · simp only [List.cons_append, splitLinesAux, if_neg hc, List.append_eq]
      rw [ih (c :: acc) htl (by
        intro hmem
        rcases List.mem_cons.mp hmem with h | h
        · exact hc' h.symm
        · exact hacc h)]
      simp

/-! ## Helper lemmas on the converter -/

theorem convertLines_append (a : List String) :
    ∀ (b : List String) (st : ConvState),
      convertLines st (a ++ b) =
        ((convertLines st a).1 ++ (convertLines (convertLines st a).2 b).1,
         (convertLines (convertLines st a).2 b).2) := by
  induction a with
  | nil =>
    intro b st
    simp [convertLines]
  | cons l ls ih =>
    intro b st
    simp only [List.cons_append, convertLines, List.append_eq]
    rw [ih]
    simp [List.append_assoc]

theorem tag_is_sentinel : hasSuffix HtmlTag HtmlTag = true := by decide

theorem convertLines_inHtml (ls : List String) :
    ∀ st : ConvState, st.inHtml = true →
      (∀ l ∈ ls, hasSuffix l HtmlTag = false) →
      convertLines st ls = (ls.map (fun l => l ++ "\n"), st) := by
  induction ls with
  | nil =>
    intro st _ _
    simp [convertLines]
  | cons l ls ih =>
    intro st h1 h2
    have hl : hasSuffix l HtmlTag = false := h2 l (by simp)
    have hstep : convertLine st l = (st, [l ++ "\n"]) := by
      simp [convertLine, hl, h1]
    simp only [convertLines, hstep]
    rw [ih st h1 (fun x hx => h2 x (by simp [hx]))]
    simp

theorem convertLines_plain (ls : List String) :
    (∀ l ∈ ls, hasSuffix l HtmlTag = false) →
      convertLines ⟨false, false⟩ ls =
        (ls.map (fun l => l ++ "\n"), ⟨false, false⟩) := by
  induction ls with
  | nil =>
    intro _
    simp [convertLines]
  | cons l ls ih =>
    intro h
    have hl : hasSuffix l HtmlTag = false := h l (by simp)
    have hstep : convertLine ⟨false, false⟩ l = (⟨false, false⟩, [l ++ "\n"]) := by
      simp [convertLine, hl]
    simp only [convertLines, hstep]
    rw [ih (fun x hx => h x (by simp [hx]))]
    simp

theorem convertLines_plain_first (l : String) (ls : List String)
    (h : ∀ x ∈ l :: ls, hasSuffix x HtmlTag = false) :
    convertLines ⟨false, true⟩ (l :: ls) =
      (preOpen :: (l :: ls).map (fun x => x ++ "\n"), ⟨false, false⟩) := by
  have hl : hasSuffix l HtmlTag = false := h l (by simp)
  have hstep : convertLine ⟨false, true⟩ l = (⟨false, false⟩, [preOpen, l ++ "\n"]) := by
    simp [convertLine, hl]
  simp only [convertLines, hstep]
  rw [convertLines_plain ls (fun x hx => h x (by simp [hx]))]
  simp

theorem convertLines_html_block (L : List String)
    (h : ∀ l ∈ L, hasSuffix l HtmlTag = false) :
    convertLines ⟨false, true⟩ (HtmlTag :: (L ++ [HtmlTag])) =
      (L.map (fun l => l ++ "\n"), ⟨false, true⟩) := by
  simp only [convertLines]
  rw [show convertLine ⟨false, true⟩ HtmlTag = (⟨true, true⟩, ([] : List String)) from
    by simp [convertLine, tag_is_sentinel]]
  rw [convertLines_append L [HtmlTag] ⟨true, true⟩]
  rw [convertLines_inHtml L ⟨true, true⟩ rfl h]
  simp [convertLines, convertLine, tag_is_sentinel]

theorem scanLines_escapeHtml (c : String) :
    scanLines (escapeHtml c ++ "\n") =
      HtmlTag :: (scanLines (c ++ "\n") ++ [HtmlTag]) := by
  unfold scanLines escapeHtml
  have hd : ((HtmlTag ++ "\n" ++ c ++ "\n" ++ HtmlTag) ++ "\n").data =
      HtmlTag.data ++ '\n' :: (c.data ++ '\n' :: (HtmlTag.data ++ ['\n'])) := by
    simp [String.data_append, data_newline]
  have hX : (c ++ "\n").data = c.data ++ ['\n'] := by
    simp [String.data_append, data_newline]
  have htag : splitLinesAux (HtmlTag.data ++ ['\n']) [] = [HtmlTag.data] := by decide
  rw [hd, splitLinesAux_newline_append]
  rw [show splitLinesAux (c.data ++ '\n' :: (HtmlTag.data ++ ['\n'])) [] =
        splitLinesAux (c.data ++ ['\n']) [] ++ splitLinesAux (HtmlTag.data ++ ['\n']) []
      from splitLinesAux_newline_append c.data [] (HtmlTag.data ++ ['\n'])]
  rw [htag, hX]
  simp [strMkData]

theorem strDataJoin (L : List String) :
    (String.join L).data = (L.map String.data).flatten := by
  suffices haux : ∀ (M : List String) (s : String),
      (M.foldl (fun r t => r ++ t) s).data = s.data ++ (M.map String.data).flatten by
    have h := haux L ""
    rw [show ("" : String).data = [] from rfl, List.nil_append] at h
    exact h
  intro M
  induction M with
  | nil =>
    intro s
    simp
  | cons t ts ih =>
    intro s
    simp [List.foldl, ih, String.data_append, List.append_assoc]

theorem flatten_lines (X : List (List Char)) :
    (((X.map String.mk).map (fun l => l ++ "\n")).map String.data).flatten =
      (X.map (fun l => l ++ ['\n'])).flatten := by
  have hfun : String.data ∘ (fun l => l ++ "\n") ∘ String.mk =
      fun l : List Char => l ++ ['\n'] := by
    funext l
    simp [Function.comp, String.data_append, strDataMk, data_newline]
  simp [List.map_map, hfun]

/-! ## Claim theorems: concrete converter runs -/

/-- Claim C1: converting the captured stream produced by writing plain line
"a", then the sentinel-encoded fragment `<b>x</b>`, then plain line "b", in
fragment (non-full-page) mode, yields exactly the token sequence
pre-open, "a\n", pre-close, "<b>x</b>\n", pre-open, "b\n", pre-close, with
these boundaries and nothing else. -/
theorem claim_C1_end_to_end_tokens :
    internalHTML false ("a\n" ++ escapeHtml ("<b>x</b>") ++ "\n" ++ "b\n") =
      ["<pre class=\"goterm\">\n", "a\n", "</pre>\n", "<b>x</b>\n",
       "<pre class=\"goterm\">\n", "b\n", "</pre>\n"] := by
  decide

/-- Claim C10 (implicit): converting an empty captured stream yields the
empty token sequence in fragment mode and exactly the page prefix followed
immediately by the page suffix in full-page mode; in particular neither the
preformatted opener nor the closer token appears. -/
theorem claim_C10_empty_stream :
    (∀ fullPage : Bool,
        internalHTML fullPage "" =
          if fullPage then [getHtmlPagePrefixStr, getHtmlPageSuffix] else []) ∧
    (∀ fullPage : Bool,
        preOpen ∉ internalHTML fullPage "" ∧ preClose ∉ internalHTML fullPage "") := by
  constructor
  · intro fullPage
    cases fullPage <;> rfl
  · intro fullPage
    cases fullPage <;> constructor <;> decide

/-- Claim C2, counterexample: the converter keys its sentinel test on
`strings.HasSuffix`, not on equality, so the line `"x" ++ HtmlTag` — which is
not exactly the sentinel and which the claim therefore requires to be
rendered as content — is instead treated as a toggle and discarded entirely
(the conversion of the one-line stream holding it yields no token at all). -/
theorem claim_C2_counterexample :
    ("x" ++ HtmlTag) ≠ HtmlTag ∧
    internalHTML false (("x" ++ HtmlTag) ++ "\n") = [] := by
  constructor
  · decide
  · decide

/-- Claim C2, amended: a line that ends with the reserved sentinel value
toggles the in-HTML-fragment flag and is never itself rendered (at most a
block closer is emitted for it); every line that does not end with the
sentinel is rendered as content — as literal HTML when the flag is set,
otherwise as plain text inside a preformatted block. -/
theorem claim_C2_sentinel_toggle (st : ConvState) (line : String) :
    (hasSuffix line HtmlTag = true →
      (convertLine st line).1 = ⟨!st.inHtml, true⟩ ∧
      ∀ tok ∈ (convertLine st line).2, tok = preClose) ∧
    (hasSuffix line HtmlTag = false →
      (st.inHtml = true → (convertLine st line).2 = [line ++ "\n"]) ∧
      (st.inHtml = false →
        (convertLine st line).2 =
          (if st.isFirstTextLine then [preOpen] else []) ++ [line ++ "\n"])) := by
  constructor
  · intro h
    constructor
    · simp [convertLine, h]
    · intro tok htok
      simp only [convertLine, h, if_true] at htok
      rcases Bool.eq_false_or_eq_true (!st.inHtml && !st.isFirstTextLine) with hb | hb <;>
        simp [hb] at htok
      exact htok
  · intro h
    constructor
    · intro hin
      simp [convertLine, h, hin]
    · intro hin
      cases hfl : st.isFirstTextLine <;> simp [convertLine, h, hin, hfl]

/-- Witness for the amended claim C2 at a concrete state and line. -/
theorem claim_C2_sentinel_toggle_witness :
    (convertLine ⟨false, true⟩ ("hi")).2 =
      (if (ConvState.mk false true).isFirstTextLine then [preOpen] else []) ++
        ["hi" ++ "\n"] :=
  ((claim_C2_sentinel_toggle ⟨false, true⟩ ("hi")).2 (by decide)).2 rfl

/-- Claim C4: a plain-text stream none of whose scanned lines is a sentinel
line renders as a single preformatted block: the opener once, each line
followed by a newline, then the closer. -/
theorem claim_C4_plain_text_wrap (s : String)
    (hne : scanLines s ≠ [])
    (h : ∀ l ∈ scanLines s, hasSuffix l HtmlTag = false) :
    internalHTML false s =
      preOpen :: (scanLines s).map (fun l => l ++ "\n") ++ [preClose] := by
  unfold internalHTML
  cases hs : scanLines s with
  | nil => exact absurd hs hne
  | cons l ls =>
    rw [hs] at h
    rw [convertLines_plain_first l ls h]
    simp

/-- Witness for claim C4 at the literal input of the specification: writing
"hi" renders as the preformatted wrapping of "hi" with a trailing newline. -/
theorem claim_C4_plain_text_wrap_witness :
    internalHTML false ("hi\n") =
      preOpen :: (scanLines ("hi\n")).map (fun l => l ++ "\n") ++ [preClose] ∧
    String.join (internalHTML false ("hi\n")) =
      "<pre class=\"goterm\">\nhi\n</pre>\n" :=
  ⟨claim_C4_plain_text_wrap ("hi\n") (by decide) (by decide), by decide⟩

/-- Claim C5, counterexample: the round trip does not hold for arbitrary
HTML content.  Encoding the sentinel value itself and converting yields the
empty output, not the content plus a trailing newline. -/
theorem claim_C5_counterexample :
    internalHTML false (escapeHtml HtmlTag ++ "\n") = [] ∧
    String.join (internalHTML false (escapeHtml HtmlTag ++ "\n")) ≠
      HtmlTag ++ "\n" := by
  constructor
  · decide
  · decide

/-- Claim C5, amended: for HTML content without carriage returns and none of
whose lines ends with the sentinel, encoding with the sentinel encoder and
converting yields exactly the content's lines verbatim, whose concatenation
is the content plus a trailing newline. -/
theorem claim_C5_roundtrip (c : String)
    (hcr : '\r' ∉ c.data)
    (h : ∀ l ∈ scanLines (c ++ "\n"), hasSuffix l HtmlTag = false) :
    internalHTML false (escapeHtml c ++ "\n") =
      (scanLines (c ++ "\n")).map (fun l => l ++ "\n") ∧
    String.join (internalHTML false (escapeHtml c ++ "\n")) = c ++ "\n" := by
  have htok : internalHTML false (escapeHtml c ++ "\n") =
      (scanLines (c ++ "\n")).map (fun l => l ++ "\n") := by
    unfold internalHTML
    rw [scanLines_escapeHtml, convertLines_html_block _ h]
    simp
  refine ⟨htok, ?_⟩
  rw [htok]
  apply String.ext
  rw [strDataJoin]
  have hX : (c ++ "\n").data = c.data ++ ['\n'] := by
    simp [String.data_append, data_newline]
  simp only [scanLines]
  rw [flatten_lines, hX]
  have hmain := splitLinesAux_flatten c.data [] hcr (by simp)
  simpa using hmain

/-- Witness for the amended claim C5 at the literal content of the
specification. -/
theorem claim_C5_roundtrip_witness :
    String.join (internalHTML false (escapeHtml ("<span>hi</span>") ++ "\n")) =
      "<span>hi</span>" ++ "\n" :=
  (claim_C5_roundtrip ("<span>hi</span>") (by decide) (by decide)).2

/-! ## Helper lemmas for the buffer -/

theorem writeAll_ok (ws : List String) :
    ∀ b : Buffer, b.closed = false →
      writeAll b ws = .ok { b with pending := b.pending ++ ws } := by
  induction ws with
  | nil =>
    intro b _
    simp [writeAll]
  | cons s rest ih =>
    intro b h
    have hw : b.WriteString s = .ok ({ b with pending := b.pending ++ [s] }, s.length) := by
      simp [Buffer.WriteString, h]
    simp only [writeAll, hw]
    rw [ih { b with pending := b.pending ++ [s] } h]
    simp [List.append_assoc]

theorem read_eof_of (b : Buffer) (cap : Nat) (hp : b.pending = [])
    (hc : b.closed = true) (hpos : b.str.length ≤ b.pos) :
    (b.Read cap).1 = .eof := by
  simp [Buffer.Read, hp, hc, if_pos hpos]

theorem readsToEof_succ (b : Buffer) (fuel cap : Nat) :
    readsToEof b (fuel + 1) cap =
      match b.Read cap with
      | (.data s, bp) => (s :: (readsToEof bp fuel cap).1, (readsToEof bp fuel cap).2)
      | (.blocked, bp) => ([], bp)
      | (.eof, bp) => ([], bp) := rfl

theorem readsToEof_drain (cap : Nat) (pend : List String) :
    ∀ b : Buffer, b.pending = pend → b.closed = true → b.str.length ≤ b.pos →
      (∀ w ∈ pend, w.length ≤ cap) →
      (readsToEof b (pend.length + 1) cap).1 = pend ∧
      (readsToEof b (pend.length + 1) cap).2.pending = [] ∧
      (readsToEof b (pend.length + 1) cap).2.closed = true ∧
      (readsToEof b (pend.length + 1) cap).2.str.length ≤
        (readsToEof b (pend.length + 1) cap).2.pos := by
  induction pend with
  | nil =>
    intro b hp hc hpos _
    have hread : b.Read cap = (.eof, b) := by
      simp [Buffer.Read, hp, hc, if_pos hpos]
    simp [readsToEof, hread, hp, hc, hpos]
  | cons w rest ih =>
    intro b hp hc hpos hcap
    have hw : w.data.length ≤ cap := hcap w (by simp)
    have htake : w.data.take cap = w.data := List.take_of_length_le hw
    have hread : b.Read cap = (.data w, ⟨rest, w, w.length, true⟩) := by
      simp only [Buffer.Read, if_pos hpos, hp, hc, htake]
    have hnext := ih ⟨rest, w, w.length, true⟩ rfl rfl (le_refl _)
      (fun x hx => hcap x (by simp [hx]))
    have hstep : readsToEof b ((w :: rest).length + 1) cap =
        (w :: (readsToEof ⟨rest, w, w.length, true⟩ (rest.length + 1) cap).1,
         (readsToEof ⟨rest, w, w.length, true⟩ (rest.length + 1) cap).2) := by
      rw [show (w :: rest).length + 1 = (rest.length + 1) + 1 by simp]
      rw [readsToEof_succ, hread]
    rw [hstep]
    exact ⟨by rw [hnext.1], hnext.2.1, hnext.2.2.1, hnext.2.2.2⟩

/-- Claim C6: the blocking stream buffer is FIFO — after writing the chunks
`ws` and closing, successive reads return exactly the chunks in write order
and then signal end-of-stream, and a write on the closed buffer is rejected
(send on a closed channel). -/
theorem claim_C6_fifo_drain (ws : List String) (cap : Nat) (b bc : Buffer)
    (hcap : ∀ w ∈ ws, w.length ≤ cap)
    (hw : writeAll NewBuffer ws = .ok b)
    (hc : b.Close = .ok bc) :
    (readsToEof bc (ws.length + 1) cap).1 = ws ∧
    ((readsToEof bc (ws.length + 1) cap).2.Read cap).1 = .eof ∧
    ∀ s, bc.WriteString s = .error ("send on closed channel") := by
  rw [writeAll_ok ws NewBuffer rfl] at hw
  have hb : b = ⟨ws, "", 0, false⟩ := by
    have := hw
    simp only [Except.ok.injEq] at this
    rw [← this]
    rfl
  subst hb
  have hbc : bc = ⟨ws, "", 0, true⟩ := by
    simp only [Buffer.Close, Bool.false_eq_true, if_false, Except.ok.injEq] at hc
    rw [← hc]
  subst hbc
  have hcap' : ∀ w ∈ ws, w.length ≤ cap := hcap
  have hd := readsToEof_drain cap ws ⟨ws, "", 0, true⟩ rfl rfl (by simp) hcap'
  refine ⟨hd.1, ?_, ?_⟩
  · exact read_eof_of _ cap hd.2.1 hd.2.2.1 hd.2.2.2
  · intro s
    simp [Buffer.WriteString]

/-- Witness for claim C6: writing "ab" then "c", closing and draining
returns exactly ["ab", "c"]. -/
theorem claim_C6_fifo_drain_witness :
    (readsToEof ⟨["ab", "c"], "", 0, true⟩ 3 2).1 = ["ab", "c"] :=
  (claim_C6_fifo_drain ["ab", "c"] 2 ⟨["ab", "c"], "", 0, false⟩
    ⟨["ab", "c"], "", 0, true⟩ (by decide) rfl rfl).1

/-! ## Claim theorems: lifecycle, pipeline, block wrapping -/

/-- Claim C7: opening a session that is already opened is a fatal usage
error, every time; and closing a session that has already been closed is a
fatal error (a close of the already-closed buffer channel), every time. -/
theorem claim_C7_double_open_close (t u up : Term) (options : List TermOption) :
    (t.opened = true → t.Open options = .error ("terminal is already opened")) ∧
    (u.Close = .ok up → up.Close = .error ("close of closed channel")) := by
  constructor
  · intro h
    simp [Term.Open, h]
  · intro h
    by_cases hcl : u.buf.closed
    · simp [Term.Close, Buffer.Close, hcl] at h
    · simp only [Term.Close, Buffer.Close, hcl, Bool.false_eq_true, if_false,
        Except.ok.injEq] at h
      rw [← h]
      simp [Term.Close, Buffer.Close]

/-- Witness for claim C7: a concrete double open and double close. -/
theorem claim_C7_double_open_close_witness :
    Term.Open ⟨NewBuffer, true, false, .HTMLWindow, 0, false, false⟩ [] =
      .error ("terminal is already opened") ∧
    Term.Close ⟨⟨[], "", 0, true⟩, false, true, .HTMLWindow, 0, false, false⟩ =
      .error ("close of closed channel") :=
  ⟨(claim_C7_double_open_close ⟨NewBuffer, true, false, .HTMLWindow, 0, false, false⟩
      NewTerm ⟨⟨[], "", 0, true⟩, false, true, .HTMLWindow, 0, false, false⟩ []).1 rfl,
   (claim_C7_double_open_close ⟨NewBuffer, true, false, .HTMLWindow, 0, false, false⟩
      NewTerm ⟨⟨[], "", 0, true⟩, false, true, .HTMLWindow, 0, false, false⟩ []).2 rfl⟩

/-- Claim C8: calling HTML() under any format other than Custom is a fatal
usage error; under Custom it returns the converter's token sequence without
error. -/
theorem claim_C8_html_requires_custom (t : Term) (fullPage : Bool) :
    (t.format ≠ .Custom →
      t.HTML fullPage = .error ("format must be CustomFormat when calling HTML()")) ∧
    (t.format = .Custom →
      t.HTML fullPage = .ok (internalHTML fullPage t.buf.contents)) := by
  constructor
  · intro h
    simp [Term.HTML, h]
  · intro h
    simp [Term.HTML, h]

/-- Witness for claim C8 at concrete sessions in HTMLWindow and Custom
formats. -/
theorem claim_C8_html_requires_custom_witness :
    Term.HTML ⟨NewBuffer, true, false, .HTMLWindow, 0, false, false⟩ false =
      .error ("format must be CustomFormat when calling HTML()") ∧
    Term.HTML ⟨NewBuffer, true, false, .Custom, 0, false, false⟩ false =
      .ok (internalHTML false (Buffer.contents NewBuffer)) :=
  ⟨(claim_C8_html_requires_custom
      ⟨NewBuffer, true, false, .HTMLWindow, 0, false, false⟩ false).1 (by decide),
   (claim_C8_html_requires_custom
      ⟨NewBuffer, true, false, .Custom, 0, false, false⟩ false).2 rfl⟩

/-- Claim C3, counterexample: a session opened with the Detach option (the
mirror-to-original flag explicitly unset) but in Raw format still mirrors
every chunk to the original destination, so mirroring is not governed by the
attach option. -/
theorem claim_C3_counterexample :
    Term.Open NewTerm [Format .Raw, Detach] =
      .ok ⟨NewBuffer, true, false, .Raw, 0, false, false⟩ ∧
    (⟨NewBuffer, true, false, .Raw, 0, false, false⟩ : Term).attachOutput = false ∧
    (runForward ⟨NewBuffer, true, false, .Raw, 0, false, false⟩ [("x")]).2 = [("x")] :=
  ⟨rfl, rfl, by decide⟩

/-- Claim C3, amended: every chunk written to a redirected stream is copied
into the Buffer, and is additionally copied to the original destination
exactly when the output format is Raw; the attach/detach option field is
never consulted. -/
theorem claim_C3_mirror_is_format_raw (t : Term) (chunks : List String) :
    (runForward t chunks).1 = chunks ∧
    (runForward t chunks).2 = (if t.format = .Raw then chunks else []) ∧
    runForward { t with attachOutput := true } chunks = runForward t chunks ∧
    runForward (Detach t) chunks = runForward t chunks := by
  refine ⟨?_, ?_, ?_, ?_⟩ <;>
    by_cases h : t.format = .Raw <;>
      simp [runForward, forwardSinks, Detach, h]

theorem escapeIframe_startsWith (p k : String) :
    startsWith (EscapeIframe p k) ("<iframe") = true := by
  unfold EscapeIframe startsWith
  simp only [String.data_append, List.append_assoc]
  exact listStarts_append_of _ _ _ (by decide)

/-- Claim C9: a fragment whose trimmed content ends in a closing page tag is
rendered inside an inline-frame element (the iframe wrapping of the content,
which starts with an iframe tag), while a fragment not ending so is inlined
raw, without iframe wrapping. -/
theorem claim_C9_iframe_autowrap (html : String) (w h : Int) (conf : blockConfig) :
    (hasSuffix (trimSpace html) ("</html>") = true →
      printBlockSizeHtml html w h conf =
        blockWrap (rowStyleOf conf)
          (("width: 100%;" ++ boxStyleOf conf w h) ++ "overflow-x: auto;")
          (EscapeIframe html ("")) ∧
      startsWith (EscapeIframe html ("")) ("<iframe") = true) ∧
    (hasSuffix (trimSpace html) ("</html>") = false →
      printBlockSizeHtml html w h conf =
        blockWrap (rowStyleOf conf)
          (if startsWith html ("<iframe")
            then ("width: 100%;" ++ boxStyleOf conf w h) ++ "overflow-x: auto;"
            else boxStyleOf conf w h)
          html) := by
  constructor
  · intro hcond
    refine ⟨?_, escapeIframe_startsWith html ("")⟩
    simp [printBlockSizeHtml, hcond, escapeIframe_startsWith]
  · intro hcond
    cases hif : startsWith html ("<iframe") <;>
      simp [printBlockSizeHtml, hcond, hif]

/-- Witness for claim C9: a full page is auto-wrapped into an iframe. -/
theorem claim_C9_iframe_autowrap_witness :
    printBlockSizeHtml ("<html></html>") 0 0 ⟨0, 0, none, none, none⟩ =
      blockWrap (rowStyleOf ⟨0, 0, none, none, none⟩)
        (("width: 100%;" ++ boxStyleOf ⟨0, 0, none, none, none⟩ 0 0) ++
          "overflow-x: auto;")
        (EscapeIframe ("<html></html>") ("")) ∧
    startsWith (EscapeIframe ("<html></html>") ("")) ("<iframe") = true :=
  (claim_C9_iframe_autowrap ("<html></html>") 0 0 ⟨0, 0, none, none, none⟩).1
    (by decide)

end GoTerm
